import Mathlib

/-!
Shallow embedding of the fleet-dashboard pipeline of `src/streamlit_app.py`
(`calculate_kpis`, `get_unit_info`, `process_fuel_files`, and the
column-resolution skeleton of `load_and_prepare_data`).

Pandas float columns are modelled by `PFloat`: an exact rational value
together with the three IEEE special values (`inf`, `-inf`, `NaN`) that the
divisions in `calculate_kpis` can produce.  All inputs the dashboard sums are
exact cell values, and the code only adds, subtracts, multiplies, divides and
compares them, so rationals plus the special values model the float column
arithmetic faithfully.
-/

/-- Value of one pandas float cell: a finite value, `inf`, `-inf` or `NaN`. -/
inductive PFloat where
  | val (q : ℚ)
  | inf
  | ninf
  | nan
deriving DecidableEq

namespace PFloat

/-- Division of two finite column values, as numpy does it on float series:
a finite quotient when the divisor is nonzero, a signed infinity on `x / 0`
with `x ≠ 0`, and NaN on `0 / 0`. -/
def divQ (a b : ℚ) : PFloat :=
  if b = 0 then (if a = 0 then nan else if 0 < a then inf else ninf)
  else val (a / b)

/-- IEEE addition on pandas float cells. -/
def add : PFloat → PFloat → PFloat
  | nan, _ => nan
  | _, nan => nan
  | inf, ninf => nan
  | ninf, inf => nan
  | inf, _ => inf
  | _, inf => inf
  | ninf, _ => ninf
  | _, ninf => ninf
  | val a, val b => val (a + b)

/-- IEEE subtraction on pandas float cells. -/
def sub : PFloat → PFloat → PFloat
  | nan, _ => nan
  | _, nan => nan
  | inf, inf => nan
  | ninf, ninf => nan
  | inf, _ => inf
  | ninf, _ => ninf
  | val _, inf => ninf
  | val _, ninf => inf
  | val a, val b => val (a - b)

/-- IEEE multiplication on pandas float cells. -/
def mul : PFloat → PFloat → PFloat
  | nan, _ => nan
  | _, nan => nan
  | val a, val b => val (a * b)
  | inf, val b => if 0 < b then inf else if b < 0 then ninf else nan
  | val a, inf => if 0 < a then inf else if a < 0 then ninf else nan
  | ninf, val b => if 0 < b then ninf else if b < 0 then inf else nan
  | val a, ninf => if 0 < a then ninf else if a < 0 then inf else nan
  | inf, inf => inf
  | inf, ninf => ninf
  | ninf, inf => ninf
  | ninf, ninf => inf

/-- IEEE division on pandas float cells (finite / ±inf is a signed zero,
which compares equal to 0, so it is modelled as `val 0`). -/
def div : PFloat → PFloat → PFloat
  | nan, _ => nan
  | _, nan => nan
  | val a, val b => divQ a b
  | val _, inf => val 0
  | val _, ninf => val 0
  | inf, val b => if 0 ≤ b then inf else ninf
  | ninf, val b => if 0 ≤ b then ninf else inf
  | inf, inf => nan
  | inf, ninf => nan
  | ninf, inf => nan
  | ninf, ninf => nan

/-- The comparison `x > 0` as evaluated by pandas: true for positive finite
values and `inf`, false for non-positives, `-inf` and NaN. -/
def gt0 : PFloat → Bool
  | val a => decide (0 < a)
  | inf => true
  | ninf => false
  | nan => false

/-- NaN test. -/
def isNaN : PFloat → Bool
  | nan => true
  | _ => false

/-- The final `resultado.replace([inf, -inf], 0)` of `calculate_kpis`:
both infinities become 0; NaN is not in the replacement list and survives. -/
def clampInf : PFloat → PFloat
  | inf => val 0
  | ninf => val 0
  | x => x

/-- `Series.mean()` with the default `skipna=True`: NaNs are dropped, the
mean of an empty selection is NaN, and an infinite summand makes the mean
infinite. -/
def mean (l : List PFloat) : PFloat :=
  let m := l.filter (fun x => !x.isNaN)
  if m.isEmpty then nan
  else div (m.foldl add (val 0)) (val (m.length : ℚ))

end PFloat

/-!
## Record model for `calculate_kpis`

The three inputs are the already date/vehicle-filtered sheets.  Numeric cells
are `Option ℚ` (`none` is the NaN a failed `to_numeric(..., errors="coerce")`
leaves); group keys are modelled as present strings, since pandas `groupby`
drops null keys and no claim involves a row with a missing `Agrupación`.
The date columns are not read by `calculate_kpis` (filtering happens in the
caller) and are omitted from these row types.
-/

/-- Row of the filtered `Viajes` sheet, as `calculate_kpis` reads it. -/
structure TripRow where
  agrupacion : String
  kilometraje : Option ℚ
  kilometrajeUrbano : Option ℚ
  kilometrajeSuburbano : Option ℚ
deriving DecidableEq

/-- Row of the filtered `Llenados de combustible ...` sheet. -/
structure FillRow where
  agrupacion : String
  llenadoRegistrado : Option ℚ
deriving DecidableEq

/-- Row of the filtered `Coste de utilización` sheet. -/
structure CostRow where
  agrupacion : String
  coste : Option ℚ
deriving DecidableEq

/-- First-occurrence deduplication (helper for group keys and
`drop_duplicates(keep="first")`). -/
def dedupFirstAux (seen : List String) : List String → List String
  | [] => []
  | k :: ks => if k ∈ seen then dedupFirstAux seen ks else k :: dedupFirstAux (k :: seen) ks

/-- The distinct values of a key column, first occurrence first. -/
def dedupFirst (l : List String) : List String :=
  dedupFirstAux [] l

/-- The distinct `Agrupación` keys of the trip sheet — the anchor row set of
`df_viajes.groupby("Agrupación")`.  (Pandas additionally sorts the group
keys, which only permutes the result rows; every property proved below is
insensitive to row order.) -/
def kpiKeys (viajes : List TripRow) : List String :=
  dedupFirst (viajes.map (·.agrupacion))

/-- `groupby("Agrupación")["Kilometraje"].sum()` for one key: NaN cells
contribute 0 (pandas sums with `skipna=True`, `min_count=0`). -/
def sumKm (viajes : List TripRow) (k : String) : ℚ :=
  ((viajes.filter (fun t => t.agrupacion = k)).map (fun t => t.kilometraje.getD 0)).sum

/-- `groupby("Agrupación")["Kilometraje urbano"].sum()` for one key. -/
def sumKmUrb (viajes : List TripRow) (k : String) : ℚ :=
  ((viajes.filter (fun t => t.agrupacion = k)).map (fun t => t.kilometrajeUrbano.getD 0)).sum

/-- Fuel sum for one key after the left merge and `fillna(0)`: a key absent
from the fill-up sheet gets 0, and a present key gets its group sum (an
all-NaN group also sums to 0), which is exactly this sum. -/
def sumLlenado (llenados : List FillRow) (k : String) : ℚ :=
  ((llenados.filter (fun f => f.agrupacion = k)).map (fun f => f.llenadoRegistrado.getD 0)).sum

/-- Cost sum for one key after the left merge and `fillna(0)`. -/
def sumCoste (costos : List CostRow) (k : String) : ℚ :=
  ((costos.filter (fun c => c.agrupacion = k)).map (fun c => c.coste.getD 0)).sum

/-- The raw `Rendimiento (km/L)` column value for one key, before the final
`replace([inf, -inf], 0)`. -/
def rendRaw (viajes : List TripRow) (llenados : List FillRow) (k : String) : PFloat :=
  PFloat.divQ (sumKm viajes k) (sumLlenado llenados k)

/-- The raw `Costo por Km ($/km)` column value for one key. -/
def costoPorKmRaw (viajes : List TripRow) (costos : List CostRow) (k : String) : PFloat :=
  PFloat.divQ (sumCoste costos k) (sumKm viajes k)

/-- The raw `Perfil Urbano (%)` column value for one key:
`Kilometraje Urbano / Kilometraje Total * 100`. -/
def perfilUrbanoRaw (viajes : List TripRow) (k : String) : PFloat :=
  PFloat.mul (PFloat.divQ (sumKmUrb viajes k) (sumKm viajes k)) (PFloat.val 100)

/-- `avg_rend`: mean of the raw `Rendimiento` column over the rows where it
compares greater than 0 (NaN rows fail the comparison; an `inf` row passes
and makes the mean infinite). -/
def avgRend (viajes : List TripRow) (llenados : List FillRow) : PFloat :=
  PFloat.mean (((kpiKeys viajes).map (rendRaw viajes llenados)).filter PFloat.gt0)

/-- `avg_urb`: mean of the raw `Perfil Urbano` column over its positive rows. -/
def avgUrb (viajes : List TripRow) : PFloat :=
  PFloat.mean (((kpiKeys viajes).map (perfilUrbanoRaw viajes)).filter PFloat.gt0)

/-- The raw `Índice de Eficiencia Ajustado` column value for one key:
`(perf_dev - urb_dev) * 100` when both fleet averages compare positive,
0 otherwise. -/
def ieaRaw (viajes : List TripRow) (llenados : List FillRow) (k : String) : PFloat :=
  let ar := avgRend viajes llenados
  let au := avgUrb viajes
  if ar.gt0 && au.gt0 then
    PFloat.mul
      (PFloat.sub (PFloat.div (PFloat.sub (rendRaw viajes llenados k) ar) ar)
                  (PFloat.div (PFloat.sub (perfilUrbanoRaw viajes k) au) au))
      (PFloat.val 100)
  else PFloat.val 0

/-- One row of the DataFrame returned by `calculate_kpis`.  The four summed
columns are plain rationals (after `fillna(0)` they can never be missing);
the four derived columns are float cells. -/
structure KpiRow where
  agrupacion : String
  kilometrajeTotal : ℚ
  kilometrajeUrbano : ℚ
  combustibleTotal : ℚ
  costoTotal : ℚ
  rendimiento : PFloat
  costoPorKm : PFloat
  perfilUrbano : PFloat
  indiceEficiencia : PFloat
deriving DecidableEq

/-- `calculate_kpis`: returns an empty frame on an empty trip set; otherwise
one row per distinct trip `Agrupación`, with summed measures, derived ratio
columns, the adjusted-efficiency index, and the final
`replace([inf, -inf], 0)` applied to every cell. -/
def calculate_kpis (viajes : List TripRow) (llenados : List FillRow)
    (costos : List CostRow) : List KpiRow :=
  if viajes.isEmpty then [] else
  (kpiKeys viajes).map fun k =>
    { agrupacion := k
      kilometrajeTotal := sumKm viajes k
      kilometrajeUrbano := sumKmUrb viajes k
      combustibleTotal := sumLlenado llenados k
      costoTotal := sumCoste costos k
      rendimiento := (rendRaw viajes llenados k).clampInf
      costoPorKm := (costoPorKmRaw viajes costos k).clampInf
      perfilUrbano := (perfilUrbanoRaw viajes k).clampInf
      indiceEficiencia := (ieaRaw viajes llenados k).clampInf }

/-- Sanity check, Scenario A of the spec: one vehicle, 100 km (40 urban),
10 L, cost 50 gives economy 10, cost/km 0.5, urban share 40. -/
theorem scenarioA :
    calculate_kpis [⟨"V1", some 100, some 40, some 60⟩]
      [⟨"V1", some 10⟩] [⟨"V1", some 50⟩]
      = [{ agrupacion := "V1", kilometrajeTotal := 100, kilometrajeUrbano := 40,
           combustibleTotal := 10, costoTotal := 50,
           rendimiento := PFloat.val 10, costoPorKm := PFloat.val (1/2),
           perfilUrbano := PFloat.val 40, indiceEficiencia := PFloat.val 0 }] := by
  norm_num [calculate_kpis, kpiKeys, dedupFirst, dedupFirstAux, sumKm, sumKmUrb,
    sumLlenado, sumCoste, rendRaw, costoPorKmRaw, perfilUrbanoRaw, ieaRaw,
    avgRend, avgUrb, PFloat.mean, PFloat.divQ, PFloat.add, PFloat.sub, PFloat.mul,
    PFloat.div, PFloat.gt0, PFloat.isNaN, PFloat.clampInf]

/-!
## Supporting lemmas
-/

/-- Occurrence count in a first-occurrence deduplication: one per distinct
unseen value. -/
theorem dedupFirstAux_countP (v : String) :
    ∀ (l seen : List String),
      (dedupFirstAux seen l).countP (fun k => k = v)
        = if v ∈ l ∧ v ∉ seen then 1 else 0
  | [], seen => by simp [dedupFirstAux]
  | k :: ks, seen => by
    rw [dedupFirstAux]
    by_cases hk : k ∈ seen
    · rw [if_pos hk, dedupFirstAux_countP v ks seen]
      by_cases hv : v = k
      · subst hv; simp [hk]
      · simp [List.mem_cons, hv]
    · rw [if_neg hk, List.countP_cons, dedupFirstAux_countP v ks (k :: seen)]
      by_cases hv : v = k
      · subst hv; simp [hk, List.mem_cons]
      · simp [List.mem_cons, hv, Ne.symm hv]

/-- A value occurs in `dedupFirst l` exactly once if it occurs in `l`,
otherwise not at all. -/
theorem dedupFirst_countP (l : List String) (v : String) :
    (dedupFirst l).countP (fun k => k = v) = if v ∈ l then 1 else 0 := by
  rw [dedupFirst, dedupFirstAux_countP]
  simp

/-- `calculate_kpis` on a nonempty trip list is the row constructor mapped
over the deduplicated trip keys. -/
theorem calculate_kpis_of_ne_nil (viajes : List TripRow) (llenados : List FillRow)
    (costos : List CostRow) (hne : viajes ≠ []) :
    calculate_kpis viajes llenados costos
      = (kpiKeys viajes).map fun k =>
        { agrupacion := k
          kilometrajeTotal := sumKm viajes k
          kilometrajeUrbano := sumKmUrb viajes k
          combustibleTotal := sumLlenado llenados k
          costoTotal := sumCoste costos k
          rendimiento := (rendRaw viajes llenados k).clampInf
          costoPorKm := (costoPorKmRaw viajes costos k).clampInf
          perfilUrbano := (perfilUrbanoRaw viajes k).clampInf
          indiceEficiencia := (ieaRaw viajes llenados k).clampInf } := by
  rw [calculate_kpis, if_neg (by simpa [List.isEmpty_iff] using hne)]

/-- Membership in the result decomposes into a key of the trip sheet. -/
theorem mem_calculate_kpis (viajes : List TripRow) (llenados : List FillRow)
    (costos : List CostRow) (row : KpiRow)
    (hrow : row ∈ calculate_kpis viajes llenados costos) :
    ∃ k ∈ kpiKeys viajes,
      row = { agrupacion := k
              kilometrajeTotal := sumKm viajes k
              kilometrajeUrbano := sumKmUrb viajes k
              combustibleTotal := sumLlenado llenados k
              costoTotal := sumCoste costos k
              rendimiento := (rendRaw viajes llenados k).clampInf
              costoPorKm := (costoPorKmRaw viajes costos k).clampInf
              perfilUrbano := (perfilUrbanoRaw viajes k).clampInf
              indiceEficiencia := (ieaRaw viajes llenados k).clampInf } := by
  rcases eq_or_ne viajes [] with rfl | hne
  · simp [calculate_kpis] at hrow
  · rw [calculate_kpis_of_ne_nil viajes llenados costos hne] at hrow
    obtain ⟨k, hk, hrow⟩ := List.mem_map.mp hrow
    exact ⟨k, hk, hrow.symm⟩

theorem PFloat.clampInf_ne_inf (x : PFloat) : x.clampInf ≠ PFloat.inf := by
  cases x <;> simp [PFloat.clampInf]

theorem PFloat.clampInf_ne_ninf (x : PFloat) : x.clampInf ≠ PFloat.ninf := by
  cases x <;> simp [PFloat.clampInf]

/-- `x / 0` with `x ≠ 0` is a signed infinity, which the final replace sends
to 0. -/
theorem PFloat.clampInf_divQ_den_zero (a : ℚ) (ha : a ≠ 0) :
    (PFloat.divQ a 0).clampInf = PFloat.val 0 := by
  rw [PFloat.divQ, if_pos rfl, if_neg ha]
  split <;> rfl

/-- `0 / 0` is NaN, which the final replace does not touch. -/
theorem PFloat.divQ_zero_zero : PFloat.divQ 0 0 = PFloat.nan := by
  rw [PFloat.divQ, if_pos rfl, if_pos rfl]

/-- `(x / 0) * 100` with `x ≠ 0` is a signed infinity, clamped to 0. -/
theorem PFloat.clampInf_mul_divQ_den_zero (a : ℚ) (ha : a ≠ 0) :
    ((PFloat.divQ a 0).mul (PFloat.val 100)).clampInf = PFloat.val 0 := by
  rw [PFloat.divQ, if_pos rfl, if_neg ha]
  split
  · norm_num [PFloat.mul, PFloat.clampInf]
  · norm_num [PFloat.mul, PFloat.clampInf]

/-!
## Claim theorems for the KPI aggregator
-/

/-- **C8** — On an empty filtered trip set `calculate_kpis` returns the empty
result set, whatever the fill-up and cost sheets contain; as a total
function of its three inputs it raises no error. -/
theorem claim_C8_empty_trip_set (llenados : List FillRow) (costos : List CostRow) :
    calculate_kpis [] llenados costos = [] := rfl

/-- **C1** — For a non-empty filtered trip set, the KPI table has exactly one
row for each vehicle id present in the trip set and no other rows (a vehicle
with no trips never appears, whatever the fill-up and cost sheets hold), and
a vehicle with no fill-up (resp. cost) records gets fuel total 0 (resp. cost
total 0) as a plain rational, not a missing marker. -/
theorem claim_C1_grouping_totality (viajes : List TripRow) (llenados : List FillRow)
    (costos : List CostRow) (hne : viajes ≠ []) :
    (∀ v : String,
      ((calculate_kpis viajes llenados costos).filter (fun r => r.agrupacion = v)).length
        = if v ∈ viajes.map (·.agrupacion) then 1 else 0)
    ∧ ∀ row ∈ calculate_kpis viajes llenados costos,
        ((∀ f ∈ llenados, f.agrupacion ≠ row.agrupacion) → row.combustibleTotal = 0)
        ∧ ((∀ c ∈ costos, c.agrupacion ≠ row.agrupacion) → row.costoTotal = 0) := by
  constructor
  · intro v
    rw [calculate_kpis_of_ne_nil viajes llenados costos hne, List.filter_map,
      List.length_map, ← List.countP_eq_length_filter]
    exact dedupFirst_countP (viajes.map (·.agrupacion)) v
  · intro row hrow
    obtain ⟨k, hk, rfl⟩ := mem_calculate_kpis viajes llenados costos row hrow
    constructor
    · intro h
      show sumLlenado llenados k = 0
      rw [sumLlenado, List.filter_eq_nil_iff.mpr (fun f hf => by simpa using h f hf)]
      rfl
    · intro h
      show sumCoste costos k = 0
      rw [sumCoste, List.filter_eq_nil_iff.mpr (fun c hc => by simpa using h c hc)]
      rfl

/-- Trip sheet for the grouping-totality witness. -/
def viajesC1w : List TripRow := [⟨"V1", some 100, some 40, some 60⟩]

theorem claim_C1_grouping_totality_witness :
    viajesC1w ≠ ([] : List TripRow)
    ∧ ((calculate_kpis viajesC1w [] []).filter (fun r => r.agrupacion = "V1")).length
        = if "V1" ∈ viajesC1w.map (·.agrupacion) then 1 else 0 := by
  have hne : viajesC1w ≠ ([] : List TripRow) := by
    rw [viajesC1w]; exact List.cons_ne_nil _ _
  exact ⟨hne, (claim_C1_grouping_totality viajesC1w [] [] hne).1 "V1"⟩

/-- **C2, counterexample** — a vehicle whose distance and fuel totals are both
0 gets `fuel_economy = 0/0 = NaN`; the final `replace([inf, -inf], 0)` does
not clamp NaN, so "if fuel_total == 0 then fuel_economy == 0" fails and the
returned table holds an undefined value. -/
theorem claim_C2_counterexample :
    ¬ (∀ row ∈ calculate_kpis [⟨"V1", some 0, some 0, some 0⟩] [] [],
        row.combustibleTotal = 0 → row.rendimiento = PFloat.val 0) := by
  have hres : calculate_kpis [⟨"V1", some 0, some 0, some 0⟩] [] []
      = [{ agrupacion := "V1", kilometrajeTotal := 0, kilometrajeUrbano := 0,
           combustibleTotal := 0, costoTotal := 0, rendimiento := PFloat.nan,
           costoPorKm := PFloat.nan, perfilUrbano := PFloat.nan,
           indiceEficiencia := PFloat.val 0 }] := by
    norm_num [calculate_kpis, kpiKeys, dedupFirst, dedupFirstAux, sumKm, sumKmUrb,
      sumLlenado, sumCoste, rendRaw, costoPorKmRaw, perfilUrbanoRaw, ieaRaw,
      avgRend, avgUrb, PFloat.mean, PFloat.divQ, PFloat.add, PFloat.sub, PFloat.mul,
      PFloat.div, PFloat.gt0, PFloat.isNaN, PFloat.clampInf]
  rw [hres]
  simp

/-- **C2 (amended)** — division safety as the code actually behaves: with a
zero fuel total the returned `fuel_economy` is 0 only when the distance total
is nonzero (a 0/0 row keeps NaN); with a zero distance total,
`cost_per_distance` (resp. `urban_share_pct`) is 0 only when the cost total
(resp. urban distance) is nonzero; and no derived column of the returned
table is ever `inf` or `-inf` — the uncaught undefined value is NaN, not an
infinity. -/
theorem claim_C2_division_safety_amended (viajes : List TripRow)
    (llenados : List FillRow) (costos : List CostRow) :
    ∀ row ∈ calculate_kpis viajes llenados costos,
      (row.combustibleTotal = 0 → row.kilometrajeTotal ≠ 0 → row.rendimiento = PFloat.val 0)
      ∧ (row.combustibleTotal = 0 → row.kilometrajeTotal = 0 → row.rendimiento = PFloat.nan)
      ∧ (row.kilometrajeTotal = 0 → row.costoTotal ≠ 0 → row.costoPorKm = PFloat.val 0)
      ∧ (row.kilometrajeTotal = 0 → row.kilometrajeUrbano ≠ 0 → row.perfilUrbano = PFloat.val 0)
      ∧ row.rendimiento ≠ PFloat.inf ∧ row.rendimiento ≠ PFloat.ninf
      ∧ row.costoPorKm ≠ PFloat.inf ∧ row.costoPorKm ≠ PFloat.ninf
      ∧ row.perfilUrbano ≠ PFloat.inf ∧ row.perfilUrbano ≠ PFloat.ninf
      ∧ row.indiceEficiencia ≠ PFloat.inf ∧ row.indiceEficiencia ≠ PFloat.ninf := by
  intro row hrow
  obtain ⟨k, hk, rfl⟩ := mem_calculate_kpis viajes llenados costos row hrow
  refine ⟨?_, ?_, ?_, ?_, PFloat.clampInf_ne_inf _, PFloat.clampInf_ne_ninf _,
    PFloat.clampInf_ne_inf _, PFloat.clampInf_ne_ninf _, PFloat.clampInf_ne_inf _,
    PFloat.clampInf_ne_ninf _, PFloat.clampInf_ne_inf _, PFloat.clampInf_ne_ninf _⟩
  · intro hfuel hkm
    have hf : sumLlenado llenados k = 0 := hfuel
    have hd : sumKm viajes k ≠ 0 := hkm
    show (rendRaw viajes llenados k).clampInf = PFloat.val 0
    rw [rendRaw, hf]
    exact PFloat.clampInf_divQ_den_zero _ hd
  · intro hfuel hkm
    have hf : sumLlenado llenados k = 0 := hfuel
    have hd : sumKm viajes k = 0 := hkm
    show (rendRaw viajes llenados k).clampInf = PFloat.nan
    rw [rendRaw, hf, hd, PFloat.divQ_zero_zero]
    rfl
  · intro hkm hcost
    have hd : sumKm viajes k = 0 := hkm
    have hc : sumCoste costos k ≠ 0 := hcost
    show (costoPorKmRaw viajes costos k).clampInf = PFloat.val 0
    rw [costoPorKmRaw, hd]
    exact PFloat.clampInf_divQ_den_zero _ hc
  · intro hkm hurb
    have hd : sumKm viajes k = 0 := hkm
    have hu : sumKmUrb viajes k ≠ 0 := hurb
    show (perfilUrbanoRaw viajes k).clampInf = PFloat.val 0
    rw [perfilUrbanoRaw, hd]
    exact PFloat.clampInf_mul_divQ_den_zero _ hu

/-- Input exercising the amended division-safety theorem: one vehicle with
distance but no fill-ups. -/
def viajesC2w : List TripRow := [⟨"V1", some 100, some 40, some 60⟩]

/-- The row `calculate_kpis` returns on `viajesC2w` with empty fuel and cost
sheets. -/
def kpiRowC2w : KpiRow :=
  { agrupacion := "V1", kilometrajeTotal := 100, kilometrajeUrbano := 40,
    combustibleTotal := 0, costoTotal := 0, rendimiento := PFloat.val 0,
    costoPorKm := PFloat.val 0, perfilUrbano := PFloat.val 40,
    indiceEficiencia := PFloat.nan }

theorem claim_C2_division_safety_amended_witness :
    kpiRowC2w ∈ calculate_kpis viajesC2w [] [] ∧ kpiRowC2w.combustibleTotal = 0
      ∧ kpiRowC2w.kilometrajeTotal ≠ 0 ∧ kpiRowC2w.rendimiento = PFloat.val 0 := by
  have hres : calculate_kpis viajesC2w [] [] = [kpiRowC2w] := by
    norm_num [viajesC2w, kpiRowC2w, calculate_kpis, kpiKeys, dedupFirst, dedupFirstAux,
      sumKm, sumKmUrb, sumLlenado, sumCoste, rendRaw, costoPorKmRaw, perfilUrbanoRaw,
      ieaRaw, avgRend, avgUrb, PFloat.mean, PFloat.divQ, PFloat.add, PFloat.sub,
      PFloat.mul, PFloat.div, PFloat.gt0, PFloat.isNaN, PFloat.clampInf]
  have hmem : kpiRowC2w ∈ calculate_kpis viajesC2w [] [] := by
    rw [hres]; exact List.mem_singleton.mpr rfl
  have hkm : kpiRowC2w.kilometrajeTotal ≠ 0 := by norm_num [kpiRowC2w]
  exact ⟨hmem, rfl, hkm,
    (claim_C2_division_safety_amended viajesC2w [] [] kpiRowC2w hmem).1 rfl hkm⟩

/-- Folding IEEE addition over copies of one finite value. -/
theorem PFloat.foldl_add_replicate_val (n : ℕ) (s a : ℚ) :
    (List.replicate n (PFloat.val a)).foldl PFloat.add (PFloat.val s)
      = PFloat.val (s + n * a) := by
  induction n generalizing s with
  | zero => simp
  | succ m ih =>
    rw [List.replicate_succ, List.foldl_cons]
    show (List.replicate m (PFloat.val a)).foldl PFloat.add (PFloat.val (s + a))
        = PFloat.val (s + ((m + 1 : ℕ) : ℚ) * a)
    rw [ih]
    congr 1
    push_cast
    ring

/-- Folding IEEE addition over copies of `inf`, starting from `inf`. -/
theorem PFloat.foldl_add_replicate_inf (n : ℕ) :
    (List.replicate n PFloat.inf).foldl PFloat.add PFloat.inf = PFloat.inf := by
  induction n with
  | zero => rfl
  | succ m ih => rw [List.replicate_succ, List.foldl_cons]; exact ih

/-- The mean of `n > 0` copies of a finite value is that value. -/
theorem PFloat.mean_replicate_val (n : ℕ) (hn : n ≠ 0) (a : ℚ) :
    PFloat.mean (List.replicate n (PFloat.val a)) = PFloat.val a := by
  have hfilter : (List.replicate n (PFloat.val a)).filter (fun x => !x.isNaN)
      = List.replicate n (PFloat.val a) :=
    List.filter_eq_self.mpr (fun x hx => by rw [List.eq_of_mem_replicate hx]; rfl)
  have hne : (List.replicate n (PFloat.val a)).isEmpty = false := by
    simp [List.isEmpty_iff, hn]
  simp only [PFloat.mean, hfilter, hne, Bool.false_eq_true, if_false,
    PFloat.foldl_add_replicate_val, List.length_replicate]
  show PFloat.divQ (0 + n * a) n = PFloat.val a
  rw [PFloat.divQ, if_neg (Nat.cast_ne_zero.mpr hn), zero_add,
    mul_div_cancel_left₀ a (Nat.cast_ne_zero.mpr hn)]

/-- The mean of `n > 0` copies of `inf` is `inf`. -/
theorem PFloat.mean_replicate_inf (n : ℕ) (hn : n ≠ 0) :
    PFloat.mean (List.replicate n PFloat.inf) = PFloat.inf := by
  obtain ⟨m, rfl⟩ := Nat.exists_eq_succ_of_ne_zero hn
  have hfilter : (List.replicate (m + 1) PFloat.inf).filter (fun x => !x.isNaN)
      = List.replicate (m + 1) PFloat.inf :=
    List.filter_eq_self.mpr (fun x hx => by rw [List.eq_of_mem_replicate hx]; rfl)
  have hne : (List.replicate (m + 1) PFloat.inf).isEmpty = false := by
    simp [List.isEmpty_iff]
  simp only [PFloat.mean, hfilter, hne, Bool.false_eq_true, if_false]
  rw [List.replicate_succ, List.foldl_cons]
  show PFloat.div ((List.replicate m PFloat.inf).foldl PFloat.add PFloat.inf)
      (PFloat.val ((List.replicate (m + 1) PFloat.inf).length : ℚ)) = PFloat.inf
  rw [PFloat.foldl_add_replicate_inf]
  show (if (0:ℚ) ≤ ((List.replicate (m + 1) PFloat.inf).length : ℚ) then PFloat.inf
      else PFloat.ninf) = PFloat.inf
  rw [if_pos (by positivity)]

/-- The fleet-average computation on a constant column: either the `> 0` gate
fails, or the average equals the constant (also when it is `inf`). -/
theorem PFloat.mean_filter_gt0_const (l : List PFloat) (c : PFloat)
    (hc : ∀ x ∈ l, x = c) :
    (PFloat.mean (l.filter PFloat.gt0)).gt0 = false
    ∨ PFloat.mean (l.filter PFloat.gt0) = c := by
  by_cases hg : PFloat.gt0 c = true
  · rcases eq_or_ne l [] with rfl | hl
    · left; rfl
    · right
      have hfl : l.filter PFloat.gt0 = l :=
        List.filter_eq_self.mpr (fun x hx => (hc x hx) ▸ hg)
      rw [hfl]
      have hlen : l.length ≠ 0 := by simpa [List.length_eq_zero] using hl
      have hrep : l = List.replicate l.length c := List.eq_replicate_of_mem hc
      cases c with
      | val a => rw [hrep]; exact PFloat.mean_replicate_val _ hlen a
      | inf => rw [hrep]; exact PFloat.mean_replicate_inf _ hlen
      | ninf => simp [PFloat.gt0] at hg
      | nan => simp [PFloat.gt0] at hg
  · left
    have hfl : l.filter PFloat.gt0 = [] :=
      List.filter_eq_nil_iff.mpr (fun x hx => by rw [hc x hx]; simpa using hg)
    rw [hfl]
    rfl

/-- `avg_rend` on a fleet whose raw economy is the constant `r`. -/
theorem avgRend_const (viajes : List TripRow) (llenados : List FillRow) (r : PFloat)
    (hr : ∀ k ∈ kpiKeys viajes, rendRaw viajes llenados k = r) :
    (avgRend viajes llenados).gt0 = false ∨ avgRend viajes llenados = r :=
  PFloat.mean_filter_gt0_const _ r
    (fun x hx => by obtain ⟨k2, hk2, rfl⟩ := List.mem_map.mp hx; exact hr k2 hk2)

/-- `avg_urb` on a fleet whose raw urban share is the constant `u`. -/
theorem avgUrb_const (viajes : List TripRow) (u : PFloat)
    (hu : ∀ k ∈ kpiKeys viajes, perfilUrbanoRaw viajes k = u) :
    (avgUrb viajes).gt0 = false ∨ avgUrb viajes = u :=
  PFloat.mean_filter_gt0_const _ u
    (fun x hx => by obtain ⟨k2, hk2, rfl⟩ := List.mem_map.mp hx; exact hu k2 hk2)

/-- **C4, counterexample** — read on the returned table (where the infinite
raw economy of a distance-but-no-fuel vehicle has already been clamped to 0),
the degenerate-fleet policy fails: no returned row has `fuel_economy > 0`
(so the fleet average over qualifying vehicles is undefined), yet the
adjusted index is NaN, not 0, because the code took its averages over the
raw ratios where the same vehicle counted as infinitely positive. -/
theorem claim_C4_counterexample :
    (∀ row ∈ calculate_kpis [⟨"V1", some 100, some 50, some 0⟩] [] [],
        row.rendimiento.gt0 = false)
    ∧ ¬ (∀ row ∈ calculate_kpis [⟨"V1", some 100, some 50, some 0⟩] [] [],
          row.indiceEficiencia = PFloat.val 0) := by
  have hres : calculate_kpis [⟨"V1", some 100, some 50, some 0⟩] [] []
      = [{ agrupacion := "V1", kilometrajeTotal := 100, kilometrajeUrbano := 50,
           combustibleTotal := 0, costoTotal := 0, rendimiento := PFloat.val 0,
           costoPorKm := PFloat.val 0, perfilUrbano := PFloat.val 50,
           indiceEficiencia := PFloat.nan }] := by
    norm_num [calculate_kpis, kpiKeys, dedupFirst, dedupFirstAux, sumKm, sumKmUrb,
      sumLlenado, sumCoste, rendRaw, costoPorKmRaw, perfilUrbanoRaw, ieaRaw,
      avgRend, avgUrb, PFloat.mean, PFloat.divQ, PFloat.add, PFloat.sub, PFloat.mul,
      PFloat.div, PFloat.gt0, PFloat.isNaN, PFloat.clampInf]
  rw [hres]
  constructor
  · intro row hrow
    rw [List.mem_singleton.mp hrow]
    simp [PFloat.gt0]
  · intro h
    have := h _ (List.mem_singleton.mpr rfl)
    simp at this

/-- **C4 (amended)** — degenerate-fleet policy as the code behaves: the
positivity gates are evaluated on the fleet averages of the *raw* (pre-clamp)
ratio columns, where a vehicle with positive distance and zero fuel counts
as an infinite, qualifying economy.  Whenever either raw average fails its
`> 0` gate (undefined because no vehicle qualifies, or non-positive), every
vehicle's adjusted efficiency index in the returned table is 0. -/
theorem claim_C4_degenerate_fleet_amended (viajes : List TripRow)
    (llenados : List FillRow) (costos : List CostRow)
    (h : ¬ ((avgRend viajes llenados).gt0 = true) ∨ ¬ ((avgUrb viajes).gt0 = true)) :
    ∀ row ∈ calculate_kpis viajes llenados costos,
      row.indiceEficiencia = PFloat.val 0 := by
  intro row hrow
  obtain ⟨k, hk, rfl⟩ := mem_calculate_kpis viajes llenados costos row hrow
  show (ieaRaw viajes llenados k).clampInf = PFloat.val 0
  have hcond : ((avgRend viajes llenados).gt0 && (avgUrb viajes).gt0) = false := by
    rcases h with h | h
    · rw [Bool.not_eq_true] at h; rw [h, Bool.false_and]
    · rw [Bool.not_eq_true] at h; rw [h, Bool.and_false]
  simp [ieaRaw, hcond, PFloat.clampInf]

/-- Trip sheet for the degenerate-fleet witness: distance but no urban km,
so the urban-share average is taken over an empty selection. -/
def viajesC4w : List TripRow := [⟨"V1", some 100, some 0, some 0⟩]

/-- Fill-up sheet for the degenerate-fleet witness. -/
def llenadosC4w : List FillRow := [⟨"V1", some 10⟩]

theorem claim_C4_degenerate_fleet_amended_witness :
    ¬ ((avgUrb viajesC4w).gt0 = true)
      ∧ ∀ row ∈ calculate_kpis viajesC4w llenadosC4w [],
          row.indiceEficiencia = PFloat.val 0 := by
  have hyp : ¬ ((avgUrb viajesC4w).gt0 = true) := by
    norm_num [viajesC4w, avgUrb, kpiKeys, dedupFirst, dedupFirstAux, perfilUrbanoRaw,
      sumKm, sumKmUrb, PFloat.divQ, PFloat.mul, PFloat.mean, PFloat.gt0, PFloat.isNaN]
  exact ⟨hyp, claim_C4_degenerate_fleet_amended viajesC4w llenadosC4w [] (Or.inr hyp)⟩

/-- **C5, counterexample** — a fleet where every vehicle (here one) shows the
same `fuel_economy` (0, after the clamp of an infinite raw ratio) and the
same `urban_share_pct` (40), yet the adjusted index is NaN rather than 0:
the raw infinite economy passed the positivity gate and `(inf - inf)/inf`
produced NaN, which the final replace does not clamp. -/
theorem claim_C5_counterexample :
    (∀ row ∈ calculate_kpis [⟨"V2", some 200, some 80, some 0⟩] [] [],
        row.rendimiento = PFloat.val 0 ∧ row.perfilUrbano = PFloat.val 40)
    ∧ ¬ (∀ row ∈ calculate_kpis [⟨"V2", some 200, some 80, some 0⟩] [] [],
          row.indiceEficiencia = PFloat.val 0) := by
  have hres : calculate_kpis [⟨"V2", some 200, some 80, some 0⟩] [] []
      = [{ agrupacion := "V2", kilometrajeTotal := 200, kilometrajeUrbano := 80,
           combustibleTotal := 0, costoTotal := 0, rendimiento := PFloat.val 0,
           costoPorKm := PFloat.val 0, perfilUrbano := PFloat.val 40,
           indiceEficiencia := PFloat.nan }] := by
    norm_num [calculate_kpis, kpiKeys, dedupFirst, dedupFirstAux, sumKm, sumKmUrb,
      sumLlenado, sumCoste, rendRaw, costoPorKmRaw, perfilUrbanoRaw, ieaRaw,
      avgRend, avgUrb, PFloat.mean, PFloat.divQ, PFloat.add, PFloat.sub, PFloat.mul,
      PFloat.div, PFloat.gt0, PFloat.isNaN, PFloat.clampInf]
  rw [hres]
  constructor
  · intro row hrow
    rw [List.mem_singleton.mp hrow]
    exact ⟨rfl, rfl⟩
  · intro h
    have := h _ (List.mem_singleton.mpr rfl)
    simp at this

/-- **C5 (amended)** — index symmetry as the code behaves: if every vehicle
has the same raw `fuel_economy` ratio and the same raw `urban_share_pct`
ratio, and neither common ratio is `inf` (no vehicle with positive distance
and zero fuel, none with zero distance and positive urban km), then every
vehicle's adjusted efficiency index is 0.  (For finite ratios the raw values
are exactly the returned table's values, so this is the original claim minus
the infinite-ratio fleets, on which the index is NaN instead — see the
counterexample.) -/
theorem claim_C5_index_symmetry_amended (viajes : List TripRow)
    (llenados : List FillRow) (costos : List CostRow) (r u : PFloat)
    (hr : ∀ k ∈ kpiKeys viajes, rendRaw viajes llenados k = r)
    (hu : ∀ k ∈ kpiKeys viajes, perfilUrbanoRaw viajes k = u)
    (hri : r ≠ PFloat.inf) (hui : u ≠ PFloat.inf) :
    ∀ row ∈ calculate_kpis viajes llenados costos,
      row.indiceEficiencia = PFloat.val 0 := by
  intro row hrow
  rcases avgRend_const viajes llenados r hr with har | har
  · exact claim_C4_degenerate_fleet_amended viajes llenados costos
      (Or.inl (by simp [har])) row hrow
  · rcases avgUrb_const viajes u hu with hau | hau
    · exact claim_C4_degenerate_fleet_amended viajes llenados costos
        (Or.inr (by simp [hau])) row hrow
    · obtain ⟨k, hk, rfl⟩ := mem_calculate_kpis viajes llenados costos row hrow
      show (ieaRaw viajes llenados k).clampInf = PFloat.val 0
      by_cases hgt : ((avgRend viajes llenados).gt0 && (avgUrb viajes).gt0) = true
      · rw [Bool.and_eq_true] at hgt
        have hgr : r.gt0 = true := by rw [← har]; exact hgt.1
        have hgu : u.gt0 = true := by rw [← hau]; exact hgt.2
        cases r with
        | inf => exact absurd rfl hri
        | ninf => simp [PFloat.gt0] at hgr
        | nan => simp [PFloat.gt0] at hgr
        | val a =>
          cases u with
          | inf => exact absurd rfl hui
          | ninf => simp [PFloat.gt0] at hgu
          | nan => simp [PFloat.gt0] at hgu
          | val b =>
            have ha : (0:ℚ) < a := by simpa [PFloat.gt0] using hgr
            have hb : (0:ℚ) < b := by simpa [PFloat.gt0] using hgu
            have hcond2 : (((PFloat.val a).gt0 && (PFloat.val b).gt0) = true) := by
              rw [hgr, hgu]; rfl
            have hiea : ieaRaw viajes llenados k
                = (PFloat.sub
                    (PFloat.div (PFloat.sub (PFloat.val a) (PFloat.val a)) (PFloat.val a))
                    (PFloat.div (PFloat.sub (PFloat.val b) (PFloat.val b)) (PFloat.val b))).mul
                    (PFloat.val 100) := by
              simp only [ieaRaw, har, hau, hr k hk, hu k hk, hcond2,
                eq_self_iff_true, if_true]
            rw [hiea]
            show ((PFloat.sub (PFloat.divQ (a - a) a) (PFloat.divQ (b - b) b)).mul
                (PFloat.val 100)).clampInf = PFloat.val 0
            rw [PFloat.divQ, if_neg (ne_of_gt ha), PFloat.divQ, if_neg (ne_of_gt hb)]
            show (PFloat.val (((a - a) / a - (b - b) / b) * 100)).clampInf = PFloat.val 0
            rw [sub_self, sub_self, zero_div, zero_div, sub_zero, zero_mul]
            rfl
      · have hcond : ((avgRend viajes llenados).gt0 && (avgUrb viajes).gt0) = false :=
          Bool.not_eq_true _ ▸ eq_false_of_ne_true hgt
        simp [ieaRaw, hcond, PFloat.clampInf]

/-- Trip sheet for the index-symmetry witness: two vehicles with identical
distance, urban distance and fuel, hence identical finite raw ratios. -/
def viajesC5w : List TripRow :=
  [⟨"V1", some 100, some 40, some 0⟩, ⟨"V2", some 100, some 40, some 0⟩]

/-- Fill-up sheet for the index-symmetry witness. -/
def llenadosC5w : List FillRow := [⟨"V1", some 10⟩, ⟨"V2", some 10⟩]

theorem claim_C5_index_symmetry_amended_witness :
    (∀ k ∈ kpiKeys viajesC5w, rendRaw viajesC5w llenadosC5w k = PFloat.val 10)
    ∧ (∀ k ∈ kpiKeys viajesC5w, perfilUrbanoRaw viajesC5w k = PFloat.val 40)
    ∧ ∀ row ∈ calculate_kpis viajesC5w llenadosC5w [],
        row.indiceEficiencia = PFloat.val 0 := by
  have h1 : ∀ k ∈ kpiKeys viajesC5w, rendRaw viajesC5w llenadosC5w k = PFloat.val 10 := by
    norm_num +decide [viajesC5w, llenadosC5w, kpiKeys, dedupFirst, dedupFirstAux, rendRaw,
      sumKm, sumLlenado, PFloat.divQ]
  have h2 : ∀ k ∈ kpiKeys viajesC5w, perfilUrbanoRaw viajesC5w k = PFloat.val 40 := by
    norm_num +decide [viajesC5w, kpiKeys, dedupFirst, dedupFirstAux, perfilUrbanoRaw,
      sumKm, sumKmUrb, PFloat.divQ, PFloat.mul]
  exact ⟨h1, h2, claim_C5_index_symmetry_amended viajesC5w llenadosC5w [] _ _ h1 h2
    (by simp) (by simp)⟩

/-!
## Tag normalization (`process_fuel_files`, `TAG_LIMPIO` columns)

`df["TAG"].astype(str).str.strip().str.replace("'", "")`, applied both to the
purchase rows and to the pivoted driver rows.
-/

/-- The quote character the cleanup removes (ASCII 39). -/
def quoteChar : Char := Char.ofNat 39

/-- `.str.strip()`: drop whitespace from both ends of the character list. -/
def trimChars (l : List Char) : List Char :=
  ((l.dropWhile Char.isWhitespace).reverse.dropWhile Char.isWhitespace).reverse

/-- `astype(str)` on one cell: a missing value renders as the string `nan`. -/
def strOfCell : Option String → String
  | none => "nan"
  | some s => s

/-- `.str.strip().str.replace("'", "")` on a rendered cell: trim surrounding
whitespace, then delete every occurrence of the quote character — pandas
`str.replace` substitutes all occurrences, not only a leading one. -/
def limpiaTagStr (s : String) : String :=
  ⟨(trimChars s.data).filter (fun c => c ≠ quoteChar)⟩

/-- The `TAG_LIMPIO` value of one tag cell. -/
def limpiaTag (t : Option String) : String :=
  limpiaTagStr (strOfCell t)

/-- Tag normalization as the spec words it: trim surrounding whitespace, then
strip a single literal *leading* quote character, leaving the rest of the
text unchanged. -/
def specCleanTag (s : String) : String :=
  match trimChars s.data with
  | c :: rest => if c = quoteChar then ⟨rest⟩ else ⟨c :: rest⟩
  | [] => ⟨[]⟩

/-- A tag with an interior quote: `AB'C`. -/
def tagQuoteMid : String := "AB" ++ String.singleton quoteChar ++ "C"

/-- **C6, counterexample** — on a tag with an interior quote the code removes
it (pandas `str.replace` deletes every quote), while the spec's
"strip a single leading quote, preserve interior characters" keeps it. -/
theorem claim_C6_counterexample :
    limpiaTagStr tagQuoteMid ≠ specCleanTag tagQuoteMid
    ∧ limpiaTagStr tagQuoteMid = "ABC"
    ∧ specCleanTag tagQuoteMid = tagQuoteMid := by
  decide

/-- **C6 (amended)** — the normalization trims surrounding whitespace and
removes *every* quote character, leading or interior; it agrees with the
spec's single-leading-quote reading exactly on tags whose trimmed text has
no quote after the first character, and its output never contains a quote. -/
theorem claim_C6_tag_normalization_amended (s : String) :
    (quoteChar ∉ (trimChars s.data).drop 1 → limpiaTagStr s = specCleanTag s)
    ∧ ∀ c ∈ (limpiaTagStr s).data, c ≠ quoteChar := by
  constructor
  · intro h
    rw [limpiaTagStr, specCleanTag]
    cases htrim : trimChars s.data with
    | nil => rfl
    | cons c rest =>
      rw [htrim] at h
      have hq : quoteChar ∉ rest := by simpa using h
      have hrest : rest.filter (fun x => x ≠ quoteChar) = rest :=
        List.filter_eq_self.mpr (fun x hx =>
          decide_eq_true (fun hxq => hq (hxq ▸ hx)))
      dsimp only
      by_cases hc : c = quoteChar
      · rw [if_pos hc, List.filter_cons, if_neg (by simp [hc]), hrest]
      · rw [if_neg hc, List.filter_cons, if_pos (by simp [hc]), hrest]
  · intro c hc
    have := (List.mem_filter.mp hc).2
    simpa using this

/-- A tag with surrounding whitespace and one leading quote, the
spreadsheet artifact the cleanup targets. -/
def tagC6w : String := " " ++ String.singleton quoteChar ++ "123 "

theorem claim_C6_tag_normalization_amended_witness :
    quoteChar ∉ (trimChars tagC6w.data).drop 1
    ∧ limpiaTagStr tagC6w = specCleanTag tagC6w
    ∧ ∀ c ∈ (limpiaTagStr tagC6w).data, c ≠ quoteChar := by
  have h : quoteChar ∉ (trimChars tagC6w.data).drop 1 := by decide
  obtain ⟨h1, h2⟩ := claim_C6_tag_normalization_amended tagC6w
  exact ⟨h, h1 h, h2⟩

/-!
## Roster resolution (`get_unit_info`)
-/

/-- Row of the `Campos personalizados` sheet: driver, field name, field
value. -/
structure CampoRow where
  conductor : Option String
  nombre : String
  valor : Option String
deriving DecidableEq

/-- Row of the `Asignaciones` sheet after `to_datetime` on `Comienzo`:
vehicle, driver, start timestamp (`none` is the NaT of an unparsable date).
Timestamps are modelled as rationals; only their order matters here. -/
structure AsigRow where
  unidad : String
  conductor : Option String
  comienzo : Option ℚ
deriving DecidableEq

/-- One row of the pivoted driver table: driver plus the `TAG` and
`DEPARTAMENTO` custom-field values. -/
structure PivotRow where
  conductor : String
  tag : Option String
  departamento : Option String
deriving DecidableEq

/-- First-occurrence deduplication by a key,
`drop_duplicates(subset=key, keep="first")` (pandas treats missing keys as
equal to each other, as `Option` equality does). -/
def dropDupByAux {α β : Type} [DecidableEq β] (key : α → β) (seen : List β) :
    List α → List α
  | [] => []
  | x :: xs =>
    if key x ∈ seen then dropDupByAux key seen xs
    else x :: dropDupByAux key (key x :: seen) xs

/-- `drop_duplicates(subset=key, keep="first")`. -/
def dropDupBy {α β : Type} [DecidableEq β] (key : α → β) (l : List α) : List α :=
  dropDupByAux key [] l

/-- The distinct non-null drivers of the custom-fields sheet (the pivot
index), in first-appearance order.  Pandas `pivot` raises on duplicate
(driver, field) pairs — ruled out by the wellformedness hypotheses of the
claims — and sorts its index, which only permutes rows. -/
def pivotConductores (campos : List CampoRow) : List String :=
  dedupFirst (campos.filterMap (·.conductor))

/-- The value of custom field `nombre` for one driver: the matching cell
(unique whenever the pivot does not raise). -/
def campoValor (campos : List CampoRow) (cond : String) (nombre : String) :
    Option String :=
  (campos.find? (fun r => r.conductor = some cond ∧ r.nombre = nombre)).bind (·.valor)

/-- `df_mega_pivot[["Conductor", "TAG", "DEPARTAMENTO"]]`: one row per
driver.  This models the success path only: when the custom-fields sheet
yields no `TAG` or `DEPARTAMENTO` pivot column at all, the real selection
raises a `KeyError` and the whole load aborts (the caller returns `None`,
producing no rows), whereas this total function fills the fields with
`none`.  Claims about attribution rows are therefore stated or witnessed on
custom-field sheets that carry both field names. -/
def megaPivot (campos : List CampoRow) : List PivotRow :=
  (pivotConductores campos).map fun cond =>
    { conductor := cond
      tag := campoValor campos cond ("TAG")
      departamento := campoValor campos cond ("DEPARTAMENTO") }

/-- Descending comparison on start timestamps with NaT last: may row `a`
come before row `b` in the sorted assignment history? -/
def asigGE (a b : AsigRow) : Bool :=
  match a.comienzo, b.comienzo with
  | _, none => true
  | none, some _ => false
  | some x, some y => decide (y ≤ x)

/-- `asigGE` as a relation, for `List.insertionSort`. -/
def asigGEP (a b : AsigRow) : Prop := asigGE a b = true

instance : DecidableRel asigGEP := fun a b => by unfold asigGEP; infer_instance

instance : IsTotal AsigRow asigGEP := by
  constructor
  intro a b
  unfold asigGEP asigGE
  rcases ha : a.comienzo with _ | x <;> rcases hb : b.comienzo with _ | y <;> simp
  exact le_total y x

instance : IsTrans AsigRow asigGEP := by
  constructor
  intro a b c hab hbc
  unfold asigGEP asigGE at *
  rcases ha : a.comienzo with _ | x <;> rcases hb : b.comienzo with _ | y <;>
    rcases hc : c.comienzo with _ | z <;> simp_all
  exact le_trans hbc hab

/-- `asigGE` is reflexive. -/
theorem asigGE_refl (a : AsigRow) : asigGE a a = true := by
  unfold asigGE
  rcases a.comienzo with _ | x <;> simp

/-- One admissible result of `sort_values("Comienzo", ascending=False)`
with the default `na_position="last"`: a stable descending sort.  The
program's default `kind="quicksort"` guarantees only a descending
permutation with missing dates last and fixes no order on equal
timestamps, so this deterministic choice is used only where the proved
properties are insensitive to the tie order (the fuel-purchase pipeline
below); every tie-order-sensitive property of the roster resolver is
settled against `sortValuesAdmissible`, which quantifies over all
admissible orders. -/
def sortAsigs (asigs : List AsigRow) : List AsigRow :=
  List.insertionSort asigGEP asigs

/-- One output row of `get_unit_info`: vehicle, current driver, tag and
department (`none` where the driver lookup fails — the row is kept). -/
structure UnitInfoRow where
  unidad : String
  conductor : Option String
  tag : Option String
  departamento : Option String
deriving DecidableEq

/-- The left join of one current-assignment row with the pivoted driver
table on `Conductor` (the pivot key is unique, so at most one match). -/
def joinInfo (pivot : List PivotRow) (a : AsigRow) : UnitInfoRow :=
  { unidad := a.unidad
    conductor := a.conductor
    tag := (pivot.find? (fun p => some p.conductor = a.conductor)).bind (·.tag)
    departamento :=
      (pivot.find? (fun p => some p.conductor = a.conductor)).bind (·.departamento) }

/-- `get_unit_info`: pivot the custom fields, sort the assignment history by
start timestamp descending (missing last), keep the first row per vehicle,
and left-join driver attributes.  The sort here is the stable admissible
order; the roster claims are settled over `get_unit_info_sorted`, which
takes any admissible order, because the program's sort does not determine
the tie order this function fixes. -/
def get_unit_info (campos : List CampoRow) (asigs : List AsigRow) :
    List UnitInfoRow :=
  (dropDupBy (fun a => a.unidad) (sortAsigs asigs)).map (joinInfo (megaPivot campos))

/-- The first input row attaining the maximal start timestamp (missing
counting as smallest) — the selector the claim's stable tie-break clause
describes; used below to exhibit an admissible sort order that disagrees
with it. -/
def firstMaxAsig : List AsigRow → Option AsigRow
  | [] => none
  | a :: rest =>
    match firstMaxAsig rest with
    | none => some a
    | some b => if asigGE a b then some a else some b

/-- Filtering a first-occurrence deduplication for one key value yields the
first input row with that key (nothing if the key was already seen). -/
theorem dropDupByAux_filter {α β : Type} [DecidableEq β] (key : α → β) (u : β) :
    ∀ (l : List α) (seen : List β),
      (dropDupByAux key seen l).filter (fun x => key x = u)
        = if u ∈ seen then [] else (l.find? (fun x => key x = u)).toList
  | [], seen => by
    by_cases hu : u ∈ seen <;> simp [dropDupByAux, hu]
  | x :: xs, seen => by
    rw [dropDupByAux]
    by_cases hx : key x ∈ seen
    · rw [if_pos hx, dropDupByAux_filter key u xs seen]
      by_cases hu : u ∈ seen
      · rw [if_pos hu, if_pos hu]
      · have hxu : ¬ (key x = u) := fun h => hu (h ▸ hx)
        rw [if_neg hu, if_neg hu, List.find?_cons_of_neg _ (by simpa using hxu)]
    · rw [if_neg hx, List.filter_cons]
      by_cases hxu : key x = u
      · have hu : u ∉ seen := fun h => hx (hxu ▸ h)
        rw [if_pos (by simpa using hxu), dropDupByAux_filter key u xs (key x :: seen),
          if_pos (by simp [hxu]), if_neg hu,
          List.find?_cons_of_pos _ (by simpa using hxu)]
        rfl
      · rw [if_neg (by simpa using hxu), dropDupByAux_filter key u xs (key x :: seen)]
        by_cases hu : u ∈ seen
        · rw [if_pos (by simp [hu]), if_pos hu]
        · rw [if_neg (by
              simp only [List.mem_cons, not_or]
              exact ⟨fun h => hxu h.symm, hu⟩),
            if_neg hu, List.find?_cons_of_neg _ (by simpa using hxu)]

/-- What the program's sorting step guarantees about its output:
`sort_values("Comienzo", ascending=False)` with the default unstable
`kind="quicksort"` returns *some* permutation of the input rows that is
descending by start timestamp with missing timestamps last.  The relative
order of rows with equal timestamps is not specified for this kind, so
roster properties are settled for every admissible order. -/
def sortValuesAdmissible (asigs sorted : List AsigRow) : Prop :=
  sorted.Perm asigs ∧ sorted.Sorted asigGEP

/-- `get_unit_info` downstream of the sort, applied to one admissible
sorted order: keep the first row per vehicle, then left-join driver
attributes. -/
def get_unit_info_sorted (campos : List CampoRow) (sorted : List AsigRow) :
    List UnitInfoRow :=
  (dropDupBy (fun a => a.unidad) sorted).map (joinInfo (megaPivot campos))

/-- `get_unit_info` is the sorted-order pipeline applied to the stable
sort — one admissible order among those the program may produce. -/
theorem get_unit_info_eq_sorted (campos : List CampoRow) (asigs : List AsigRow) :
    get_unit_info campos asigs = get_unit_info_sorted campos (sortAsigs asigs) := rfl

/-- The stable sort is admissible. -/
theorem sortAsigs_admissible (asigs : List AsigRow) :
    sortValuesAdmissible asigs (sortAsigs asigs) :=
  ⟨List.perm_insertionSort asigGEP asigs, List.sorted_insertionSort asigGEP asigs⟩

/-- In a descending-sorted list, the first row satisfying `p` is at least
as recent as every other `p`-row of the list. -/
theorem find?_maximal_of_sorted (p : AsigRow → Bool) :
    ∀ (l : List AsigRow), l.Sorted asigGEP → ∀ a : AsigRow, l.find? p = some a →
      ∀ b ∈ l, p b → b = a ∨ asigGE a b = true
  | [], _, a, hf => by simp at hf
  | c :: l2, hs, a, hf => by
    obtain ⟨hc, hs2⟩ := List.sorted_cons.mp hs
    intro b hb hpb
    by_cases hpc : p c
    · rw [List.find?_cons_of_pos _ hpc] at hf
      injection hf with hf
      subst hf
      rcases List.mem_cons.mp hb with rfl | hb2
      · exact Or.inl rfl
      · exact Or.inr (hc b hb2)
    · rw [List.find?_cons_of_neg _ hpc] at hf
      rcases List.mem_cons.mp hb with rfl | hb2
      · exact absurd hpb hpc
      · exact find?_maximal_of_sorted p l2 hs2 a hf b hb2 hpb

/-- For one vehicle, the rows of `get_unit_info_sorted` are the join of the
first sorted row carrying that vehicle id. -/
theorem get_unit_info_sorted_filter (campos : List CampoRow)
    (sorted : List AsigRow) (u : String) :
    (get_unit_info_sorted campos sorted).filter (fun r => r.unidad = u)
      = ((sorted.find? (fun a => a.unidad = u)).toList).map
          (joinInfo (megaPivot campos)) := by
  rw [get_unit_info_sorted, List.filter_map]
  have hpred : ((fun r : UnitInfoRow => decide (r.unidad = u)) ∘ joinInfo (megaPivot campos))
      = fun a : AsigRow => decide (a.unidad = u) := rfl
  rw [hpred, dropDupBy,
    dropDupByAux_filter (fun a : AsigRow => a.unidad) u sorted [],
    if_neg (List.not_mem_nil u)]

/-- Assignment history with two rows for one vehicle at the *same*
timestamp. -/
def asigsC3cex : List AsigRow :=
  [⟨"V1", some "D1", some 3⟩, ⟨"V1", some "D2", some 3⟩]

/-- An admissible sort order for `asigsC3cex` that lists the second input
row first — sorted descending (the two timestamps are equal) and a
permutation of the input. -/
def sortedAltC3 : List AsigRow :=
  [⟨"V1", some "D2", some 3⟩, ⟨"V1", some "D1", some 3⟩]

/-- Well-formed custom-fields sheet for the tie counterexample. -/
def camposC3cex : List CampoRow :=
  [⟨some "D1", "TAG", some "101"⟩, ⟨some "D1", "DEPARTAMENTO", some "OPS"⟩,
   ⟨some "D2", "TAG", some "102"⟩, ⟨some "D2", "DEPARTAMENTO", some "OPS"⟩]

/-- **C3, counterexample** — the claim's stable first-encountered tie-break
is not a property of the program: `sort_values` runs with the default
`kind="quicksort"`, which guarantees only a descending permutation with
missing dates last and fixes no order on rows with equal timestamps.  For a
vehicle with two same-timestamp assignments, the admissible order listing
the second input row first is sorted and a permutation, yet the resolver
keeps the *second* encountered driver (`D2`), while the claim's
first-encountered selector demands `D1`. -/
theorem claim_C3_counterexample :
    sortValuesAdmissible asigsC3cex sortedAltC3
    ∧ ((get_unit_info_sorted camposC3cex sortedAltC3).filter
        (fun r => r.unidad = "V1")).map (fun r => r.conductor) = [some "D2"]
    ∧ ((firstMaxAsig (asigsC3cex.filter (fun a => a.unidad = "V1"))).map
        (fun a => a.conductor)).toList = [some "D1"] := by
  refine ⟨⟨by decide, by decide⟩, by decide, by decide⟩

/-- **C3 (amended)** — roster determinism for every admissible sort order.
Under the wellformedness the success path of `get_unit_info` requires (no
duplicate (driver, field) pairs, so the pivot does not raise, and both the
`TAG` and `DEPARTAMENTO` field names occur), and for *every* row order the
unstable sort may produce: the output has exactly one row per vehicle id
appearing in the assignment history; that row's driver is the driver of an
assignment attaining the maximal start timestamp for that vehicle; and
whenever one assignment is strictly later than every other for the vehicle
— in particular with two rows at different timestamps — that later
assignment's driver wins.  Which same-timestamp row wins is the sort's
unspecified tie order (see the counterexample), not necessarily the first
encountered. -/
theorem claim_C3_assignment_determinism_amended (campos : List CampoRow)
    (asigs sorted : List AsigRow)
    (hpairs : (campos.filterMap (fun r => r.conductor.map (fun c => (c, r.nombre)))).Nodup)
    (htag : ∃ r ∈ campos, r.conductor ≠ none ∧ r.nombre = "TAG")
    (hdep : ∃ r ∈ campos, r.conductor ≠ none ∧ r.nombre = "DEPARTAMENTO")
    (hperm : sorted.Perm asigs) (hsorted : sorted.Sorted asigGEP) :
    ∀ u : String,
      (((get_unit_info_sorted campos sorted).filter (fun r => r.unidad = u)).length
          = if ∃ a ∈ asigs, a.unidad = u then 1 else 0)
      ∧ (∀ row ∈ (get_unit_info_sorted campos sorted).filter (fun r => r.unidad = u),
          ∃ a ∈ asigs, a.unidad = u ∧ a.conductor = row.conductor
            ∧ ∀ b ∈ asigs, b.unidad = u → asigGE a b = true)
      ∧ (∀ astar ∈ asigs, astar.unidad = u →
          (∀ b ∈ asigs, b.unidad = u → b = astar ∨ asigGE b astar = false) →
          ∀ row ∈ (get_unit_info_sorted campos sorted).filter (fun r => r.unidad = u),
            row.conductor = astar.conductor) := by
  intro u
  cases hf : sorted.find? (fun a => a.unidad = u) with
  | none =>
    have hempty : (get_unit_info_sorted campos sorted).filter (fun r => r.unidad = u)
        = [] := by
      rw [get_unit_info_sorted_filter, hf]
      rfl
    have hnex : ¬ ∃ a ∈ asigs, a.unidad = u := by
      rintro ⟨a, ha, hau⟩
      exact (List.find?_eq_none.mp hf a (hperm.mem_iff.mpr ha)) (by simpa using hau)
    refine ⟨?_, ?_, ?_⟩
    · rw [hempty, if_neg hnex]
      rfl
    · rw [hempty]
      rintro row hrow
      simp at hrow
    · rw [hempty]
      rintro astar _ _ _ row hrow
      simp at hrow
  | some a =>
    have hrows : (get_unit_info_sorted campos sorted).filter (fun r => r.unidad = u)
        = [joinInfo (megaPivot campos) a] := by
      rw [get_unit_info_sorted_filter, hf]
      rfl
    have hamem : a ∈ asigs := hperm.subset (List.mem_of_find?_eq_some hf)
    have hau : a.unidad = u := by simpa using List.find?_some hf
    have hmax : ∀ b ∈ asigs, b.unidad = u → asigGE a b = true := by
      intro b hb hbu
      rcases find?_maximal_of_sorted (fun x => x.unidad = u) sorted hsorted a hf b
          (hperm.mem_iff.mpr hb) (by simpa using hbu) with rfl | hge
      · exact asigGE_refl b
      · exact hge
    refine ⟨?_, ?_, ?_⟩
    · rw [hrows, if_pos ⟨a, hamem, hau⟩]
      rfl
    · intro row hrow
      rw [hrows, List.mem_singleton] at hrow
      subst hrow
      exact ⟨a, hamem, hau, rfl, hmax⟩
    · intro astar hstar hstaru hstrict row hrow
      rw [hrows, List.mem_singleton] at hrow
      subst hrow
      rcases hstrict a hamem hau with heq | hlt
      · rw [heq]
        rfl
      · exact absurd (hmax astar hstar hstaru) (by simp [hlt])

/-- Custom-fields sheet for the roster witness. -/
def camposC3w : List CampoRow :=
  [⟨some "D1", "TAG", some "111"⟩, ⟨some "D1", "DEPARTAMENTO", some "OPS"⟩,
   ⟨some "D2", "TAG", some "222"⟩, ⟨some "D2", "DEPARTAMENTO", some "OPS"⟩]

/-- Assignment history for the roster witness: vehicle `V1` held by `D1`
first, then by `D2` at a strictly later start timestamp. -/
def asigsC3w : List AsigRow :=
  [⟨"V1", some "D1", some 1⟩, ⟨"V1", some "D2", some 5⟩]

/-- The (unique) admissible sort order for `asigsC3w`. -/
def sortedC3w : List AsigRow :=
  [⟨"V1", some "D2", some 5⟩, ⟨"V1", some "D1", some 1⟩]

theorem claim_C3_assignment_determinism_amended_witness :
    sortedC3w.Perm asigsC3w ∧ sortedC3w.Sorted asigGEP
    ∧ (((get_unit_info_sorted camposC3w sortedC3w).filter
        (fun r => r.unidad = "V1")).length
          = if ∃ a ∈ asigsC3w, a.unidad = "V1" then 1 else 0)
    ∧ ∀ row ∈ (get_unit_info_sorted camposC3w sortedC3w).filter
        (fun r => r.unidad = "V1"), row.conductor = some "D2" := by
  have hperm : sortedC3w.Perm asigsC3w := by decide
  have hsorted : sortedC3w.Sorted asigGEP := by decide
  have h := claim_C3_assignment_determinism_amended camposC3w asigsC3w sortedC3w
    (by decide) (by decide) (by decide) hperm hsorted "V1"
  exact ⟨hperm, hsorted, h.1,
    h.2.2 ⟨"V1", some "D2", some 5⟩ (by decide) rfl (by decide)⟩

/-!
## Fuel-purchase attribution (`process_fuel_files`)
-/

/-- Row of the consumption (POS purchase) workbook.  Numeric cells are the
parsed rationals; the timestamp (`FECHA` after `to_datetime`) is carried
through unchanged — its `strftime` string rendering is presentational and
not modelled. -/
structure ConsumoRow where
  tag : Option String
  precio : Option ℚ
  cantidad : Option ℚ
  importe : Option ℚ
  fecha : Option ℚ
  modelo : Option String
  producto : Option String
deriving DecidableEq

/-- Output row of `process_fuel_files`: `PRECIO`, `CANTIDAD`, `IMPORTE`, the
timestamp, `Descripcion`, `UNIDAD`. -/
structure OutRow where
  precio : Option ℚ
  cantidad : Option ℚ
  importe : Option ℚ
  fecha : Option ℚ
  descripcion : String
  unidad : Option String
deriving DecidableEq

/-- `fillna("").astype(str)` on a text cell of the description. -/
def renderCell : Option String → String
  | none => ""
  | some s => s

/-- The five-field description
`TAG_x - UNIDAD_ASIGNADA - DEPARTAMENTO - MODELO - PRODUCTO`: a literal
separator between the fields, missing fields rendered as empty strings. -/
def descripcion (tag unidad dep modelo producto : Option String) : String :=
  renderCell tag ++ " - " ++ renderCell unidad ++ " - " ++ renderCell dep
    ++ " - " ++ renderCell modelo ++ " - " ++ renderCell producto

/-- The current vehicle per driver:
`sort_values("Comienzo", ascending=False)` then
`drop_duplicates(subset="Conductor", keep="first")` — the same sort as the
roster resolver, deduplicated by driver instead of vehicle. -/
def asignacionVigente (asigs : List AsigRow) : List AsigRow :=
  dropDupBy (fun a => a.conductor) (sortAsigs asigs)

/-- One output row built from a purchase row and its (optional) driver-table
match: the second left join looks up the driver's current vehicle in the
deduplicated assignment table (unique driver key, so at most one match;
missing keys join missing keys, as pandas merges do). -/
def mkOutRow (vigente : List AsigRow) (c : ConsumoRow) (m : Option PivotRow) : OutRow :=
  let conductor : Option String := m.map (·.conductor)
  let unidad : Option String :=
    (vigente.find? (fun a => a.conductor = conductor)).map (·.unidad)
  { precio := c.precio
    cantidad := c.cantidad
    importe := c.importe
    fecha := c.fecha
    descripcion := descripcion c.tag unidad (m.bind (·.departamento)) c.modelo c.producto
    unidad := unidad }

/-- The rows one purchase contributes after the left join on the cleaned
tag: one row per matching driver row, or a single unattributed row. -/
def attribRows (pivot : List PivotRow) (vigente : List AsigRow) (c : ConsumoRow) :
    List OutRow :=
  let hits := pivot.filter (fun p => limpiaTag p.tag = limpiaTag c.tag)
  if hits.isEmpty then [mkOutRow vigente c none]
  else hits.map (fun p => mkOutRow vigente c (some p))

/-- `process_fuel_files`: clean the tag on both sides, left-join purchases
to the pivoted driver table on the cleaned tag, left-join each driver's
current vehicle, and build the description. -/
def process_fuel_files (consumo : List ConsumoRow) (campos : List CampoRow)
    (asigs : List AsigRow) : List OutRow :=
  consumo.flatMap (attribRows (megaPivot campos) (asignacionVigente asigs))

/-- Count of non-overlapping occurrences of the separator `" - "`, scanning
left to right (how the claim's "contains exactly 4 occurrences" reads). -/
def countSepList : List Char → Nat
  | [] => 0
  | [_] => 0
  | [_, _] => 0
  | c1 :: c2 :: c3 :: rest =>
    if c1 = ' ' ∧ c2 = '-' ∧ c3 = ' ' then countSepList rest + 1
    else countSepList (c2 :: c3 :: rest)

/-- Separator count of a string. -/
def countSep (s : String) : Nat := countSepList s.data

/-- A hyphen-free character list contains no separator. -/
theorem countSepList_eq_zero : ∀ (l : List Char), ('-') ∉ l → countSepList l = 0
  | [], _ => rfl
  | [_], _ => rfl
  | [_, _], _ => rfl
  | c1 :: c2 :: c3 :: rest, h => by
    rw [countSepList,
      if_neg (by
        intro hcond
        exact h (hcond.2.1 ▸ (by simp : c2 ∈ c1 :: c2 :: c3 :: rest)))]
    exact countSepList_eq_zero (c2 :: c3 :: rest)
      (fun hm => h (List.mem_cons_of_mem _ hm))

/-- Scanning a hyphen-free prefix, the counter first fires on the separator
that follows it. -/
theorem countSepList_append : ∀ (v : List Char), ('-') ∉ v →
    ∀ rest : List Char,
      countSepList (v ++ ' ' :: '-' :: ' ' :: rest) = countSepList rest + 1
  | [], _, rest => by
    rw [List.nil_append, countSepList, if_pos ⟨rfl, rfl, rfl⟩]
  | [c], h, rest => by
    rw [List.cons_append, List.nil_append, countSepList,
      if_neg (by intro hcond; exact absurd hcond.2.1 (by decide))]
    rw [countSepList, if_pos ⟨rfl, rfl, rfl⟩]
  | c :: d :: v2, h, rest => by
    have hd : d ≠ ('-') :=
      fun heq => h (heq ▸ (by simp : d ∈ c :: d :: v2))
    cases hE : v2 ++ ' ' :: '-' :: ' ' :: rest with
    | nil => exact absurd hE (by simp)
    | cons e E =>
      have hsplit : (c :: d :: v2) ++ ' ' :: '-' :: ' ' :: rest = c :: d :: e :: E := by
        rw [List.cons_append, List.cons_append, hE]
      rw [hsplit, countSepList, if_neg (fun hcond => hd hcond.2.1),
        show d :: e :: E = (d :: v2) ++ ' ' :: '-' :: ' ' :: rest from by
          rw [List.cons_append, hE]]
      exact countSepList_append (d :: v2)
        (fun hm => h (List.mem_cons_of_mem _ hm)) rest

/-- The separator count of a five-field description whose rendered fields
are hyphen-free is exactly 4. -/
theorem countSep_descripcion (t u dep m p : Option String)
    (ht : ('-') ∉ (renderCell t).data) (hu : ('-') ∉ (renderCell u).data)
    (hdep : ('-') ∉ (renderCell dep).data) (hm : ('-') ∉ (renderCell m).data)
    (hp : ('-') ∉ (renderCell p).data) :
    countSep (descripcion t u dep m p) = 4 := by
  have hdata : (descripcion t u dep m p).data
      = (renderCell t).data ++ ' ' :: '-' :: ' ' ::
        ((renderCell u).data ++ ' ' :: '-' :: ' ' ::
          ((renderCell dep).data ++ ' ' :: '-' :: ' ' ::
            ((renderCell m).data ++ ' ' :: '-' :: ' ' :: (renderCell p).data))) := by
    simp [descripcion, String.data_append]
  rw [countSep, hdata, countSepList_append _ ht, countSepList_append _ hu,
    countSepList_append _ hdep, countSepList_append _ hm,
    countSepList_eq_zero _ hp]

/-- Deduplicated rows all come from the input. -/
theorem mem_dropDupByAux {α β : Type} [DecidableEq β] (key : α → β) :
    ∀ (l : List α) (seen : List β) (x : α), x ∈ dropDupByAux key seen l → x ∈ l
  | [], _, x, h => by simp [dropDupByAux] at h
  | a :: l, seen, x, h => by
    rw [dropDupByAux] at h
    by_cases ha : key a ∈ seen
    · rw [if_pos ha] at h
      exact List.mem_cons_of_mem _ (mem_dropDupByAux key l seen x h)
    · rw [if_neg ha] at h
      rcases List.mem_cons.mp h with rfl | h2
      · exact List.mem_cons_self _ _
      · exact List.mem_cons_of_mem _ (mem_dropDupByAux key l _ x h2)

/-- Rows of the deduplicated current-assignment table come from the
assignment history. -/
theorem mem_asignacionVigente (asigs : List AsigRow) (a : AsigRow)
    (h : a ∈ asignacionVigente asigs) : a ∈ asigs :=
  (List.perm_insertionSort asigGEP asigs).subset (mem_dropDupByAux _ _ _ _ h)

/-- Filtering for one key value in a list with pairwise-distinct keys
yields nothing or a single row. -/
theorem filter_key_eq_of_pairwise {α β : Type} [DecidableEq β] (f : α → β)
    (l : List α) (h : l.Pairwise (fun p q => f p ≠ f q)) (x : β) :
    l.filter (fun p => f p = x) = []
    ∨ ∃ p, l.filter (fun p => f p = x) = [p] := by
  induction l with
  | nil => exact Or.inl rfl
  | cons a l ih =>
    obtain ⟨ha, hl⟩ := List.pairwise_cons.mp h
    rw [List.filter_cons]
    by_cases hax : f a = x
    · rw [if_pos (by simpa using hax)]
      have hnil : l.filter (fun p => f p = x) = [] :=
        List.filter_eq_nil_iff.mpr (fun b hb => by
          simp only [decide_eq_true_eq]
          exact fun hbx => ha b hb (hax.trans hbx.symm))
      rw [hnil]
      exact Or.inr ⟨a, rfl⟩
    · rw [if_neg (by simpa using hax)]
      exact ih hl

/-- **C10** — The two left joins of `process_fuel_files` neither drop nor
duplicate a purchase line when the pivoted driver table has pairwise
distinct cleaned tags and the deduplicated assignment table has at most one
row per driver (the latter holds by construction): the output carries
exactly one row per input purchase, in order, with its price, quantity and
amount. -/
theorem claim_C10_purchase_row_preservation (consumo : List ConsumoRow)
    (campos : List CampoRow) (asigs : List AsigRow)
    (hdistinct : (megaPivot campos).Pairwise
      (fun p q => limpiaTag p.tag ≠ limpiaTag q.tag))
    (hvigente : (asignacionVigente asigs).Pairwise
      (fun a b => a.conductor ≠ b.conductor)) :
    (process_fuel_files consumo campos asigs).map
        (fun r => (r.precio, r.cantidad, r.importe))
      = consumo.map (fun c => (c.precio, c.cantidad, c.importe)) := by
  rw [process_fuel_files]
  induction consumo with
  | nil => rfl
  | cons c rest ih =>
    rw [List.flatMap_cons, List.map_append, ih, List.map_cons]
    simp only [attribRows]
    rcases filter_key_eq_of_pairwise (fun p => limpiaTag p.tag) (megaPivot campos)
        hdistinct (limpiaTag c.tag) with hf | ⟨p, hf⟩
    · rw [hf]
      rfl
    · rw [hf]
      rfl

/-- Purchases for the row-preservation witness: one matching tag, one
unknown tag. -/
def consumoC10w : List ConsumoRow :=
  [⟨some "T9", some 20, some 3, some 60, none, some "M9", some "P9"⟩,
   ⟨some "ZZ", some 21, some 1, some 21, none, some "M8", some "P8"⟩]

/-- Custom fields for the row-preservation witness. -/
def camposC10w : List CampoRow :=
  [⟨some "D9", "TAG", some "T9"⟩, ⟨some "D9", "DEPARTAMENTO", some "OPS"⟩]

/-- Assignment history for the row-preservation witness. -/
def asigsC10w : List AsigRow := [⟨"V9", some "D9", some 3⟩]

theorem claim_C10_purchase_row_preservation_witness :
    (megaPivot camposC10w).Pairwise (fun p q => limpiaTag p.tag ≠ limpiaTag q.tag)
    ∧ (asignacionVigente asigsC10w).Pairwise (fun a b => a.conductor ≠ b.conductor)
    ∧ (process_fuel_files consumoC10w camposC10w asigsC10w).map
        (fun r => (r.precio, r.cantidad, r.importe))
      = consumoC10w.map (fun c => (c.precio, c.cantidad, c.importe)) := by
  have h1 : (megaPivot camposC10w).Pairwise
      (fun p q => limpiaTag p.tag ≠ limpiaTag q.tag) := by decide
  have h2 : (asignacionVigente asigsC10w).Pairwise
      (fun a b => a.conductor ≠ b.conductor) := by decide
  exact ⟨h1, h2,
    claim_C10_purchase_row_preservation consumoC10w camposC10w asigsC10w h1 h2⟩

/-- Well-formed custom-fields sheet for the separator counterexample: one
driver with both `TAG` and `DEPARTAMENTO`, so the program's pivot-column
selection succeeds and the description-building path is reached. -/
def camposC7cex : List CampoRow :=
  [⟨some "DX", "TAG", some "TX"⟩, ⟨some "DX", "DEPARTAMENTO", some "DEPX"⟩]

/-- Assignment history for the separator counterexample. -/
def asigsC7cex : List AsigRow := [⟨"VX", some "DX", some 1⟩]

/-- **C7, counterexample** — the separator count is not always 4: a tag
whose own text contains `" - "` adds occurrences.  The roster file is well
formed (the pivot carries `TAG` and `DEPARTAMENTO`, so the program reaches
the description-building path); the purchase tag `"A - B"` matches no
driver, the row is kept with empty attribution fields, and its description
`"A - B -  -  -  - "` contains 5 occurrences of the separator, not 4. -/
theorem claim_C7_counterexample :
    ¬ (∀ row ∈ process_fuel_files
          [⟨some ("A - B"), none, none, none, none, none, none⟩]
          camposC7cex asigsC7cex,
        countSep row.descripcion = 4) := by
  decide

/-- The separator count of one attributed row is 4 when the purchase's own
text fields are hyphen-free, every vehicle id in the lookup table is
hyphen-free, and the matched driver row's department is hyphen-free. -/
theorem countSep_mkOutRow (vigente : List AsigRow) (c : ConsumoRow)
    (m : Option PivotRow)
    (ht : ('-') ∉ (renderCell c.tag).data)
    (hmo : ('-') ∉ (renderCell c.modelo).data)
    (hpr : ('-') ∉ (renderCell c.producto).data)
    (hv : ∀ a ∈ vigente, ('-') ∉ a.unidad.data)
    (hd : ∀ p d, m = some p → p.departamento = some d → ('-') ∉ d.data) :
    countSep (mkOutRow vigente c m).descripcion = 4 := by
  show countSep (descripcion c.tag
      ((vigente.find? (fun a => a.conductor = m.map (·.conductor))).map (·.unidad))
      (m.bind (·.departamento)) c.modelo c.producto) = 4
  apply countSep_descripcion c.tag _ _ c.modelo c.producto ht _ _ hmo hpr
  · cases hfind : (vigente.find? (fun a => a.conductor = m.map (·.conductor))) with
    | none => simp [renderCell]
    | some a =>
      have hmem : a ∈ vigente := List.mem_of_find?_eq_some hfind
      simpa [renderCell] using hv a hmem
  · cases m with
    | none => simp [renderCell]
    | some p =>
      cases hdep : p.departamento with
      | none => simp [hdep, renderCell]
      | some d =>
        rw [show renderCell ((some p).bind (·.departamento)) = d by rw [Option.some_bind, hdep]; rfl]
        exact hd p d rfl hdep

/-- **C7 (amended)** — description stability: every output row's description
has exactly 4 separator occurrences, with missing fields rendered as empty
strings, *provided* no contributing field value itself contains a hyphen;
a field value containing `" - "` (see the counterexample) adds occurrences.
The hyphen-free proviso covers the purchase's tag, model and product texts,
the vehicle ids of the assignment history, and the custom-field values. -/
theorem claim_C7_description_stability_amended (consumo : List ConsumoRow)
    (campos : List CampoRow) (asigs : List AsigRow)
    (hc : ∀ c ∈ consumo, ('-') ∉ (renderCell c.tag).data
        ∧ ('-') ∉ (renderCell c.modelo).data ∧ ('-') ∉ (renderCell c.producto).data)
    (ha : ∀ a ∈ asigs, ('-') ∉ a.unidad.data)
    (hf : ∀ r ∈ campos, ('-') ∉ (renderCell r.valor).data) :
    ∀ row ∈ process_fuel_files consumo campos asigs,
      countSep row.descripcion = 4 := by
  intro row hrow
  rw [process_fuel_files] at hrow
  obtain ⟨c, hcmem, hrow⟩ := List.mem_flatMap.mp hrow
  have hv : ∀ a ∈ asignacionVigente asigs, ('-') ∉ a.unidad.data :=
    fun a hav => ha a (mem_asignacionVigente asigs a hav)
  have hdept : ∀ p : PivotRow, p ∈ megaPivot campos →
      ∀ d : String, p.departamento = some d → ('-') ∉ d.data := by
    intro p hp d hpd
    rw [megaPivot] at hp
    obtain ⟨cond, _, rfl⟩ := List.mem_map.mp hp
    rw [campoValor] at hpd
    obtain ⟨r, hrfind, hrval⟩ := Option.bind_eq_some.mp hpd
    have hrmem : r ∈ campos := List.mem_of_find?_eq_some hrfind
    have := hf r hrmem
    rw [hrval] at this
    exact this
  simp only [attribRows] at hrow
  by_cases he : ((megaPivot campos).filter
      (fun p => limpiaTag p.tag = limpiaTag c.tag)).isEmpty
  · rw [if_pos he, List.mem_singleton] at hrow
    subst hrow
    exact countSep_mkOutRow _ c none (hc c hcmem).1 (hc c hcmem).2.1
      (hc c hcmem).2.2 hv (fun p d hpd => by cases hpd)
  · rw [if_neg he] at hrow
    obtain ⟨p, hp, hrow⟩ := List.mem_map.mp hrow
    subst hrow
    exact countSep_mkOutRow _ c (some p) (hc c hcmem).1 (hc c hcmem).2.1
      (hc c hcmem).2.2 hv
      (fun q d hq hqd => by
        injection hq with hq
        exact hdept q (hq ▸ List.mem_of_mem_filter hp) d hqd)

/-- Purchases for the description-stability witness. -/
def consumoC7w : List ConsumoRow :=
  [⟨some "T7", some 10, some 2, some 20, none, some "M7", some "P7"⟩]

/-- Custom fields for the description-stability witness. -/
def camposC7w : List CampoRow :=
  [⟨some "D7", "TAG", some "T7"⟩, ⟨some "D7", "DEPARTAMENTO", some "OPS"⟩]

/-- Assignment history for the description-stability witness. -/
def asigsC7w : List AsigRow := [⟨"V7", some "D7", some 2⟩]

theorem claim_C7_description_stability_amended_witness :
    (∀ c ∈ consumoC7w, ('-') ∉ (renderCell c.tag).data
        ∧ ('-') ∉ (renderCell c.modelo).data ∧ ('-') ∉ (renderCell c.producto).data)
    ∧ (∀ a ∈ asigsC7w, ('-') ∉ a.unidad.data)
    ∧ (∀ r ∈ camposC7w, ('-') ∉ (renderCell r.valor).data)
    ∧ ∀ row ∈ process_fuel_files consumoC7w camposC7w asigsC7w,
        countSep row.descripcion = 4 := by
  have h1 : ∀ c ∈ consumoC7w, ('-') ∉ (renderCell c.tag).data
      ∧ ('-') ∉ (renderCell c.modelo).data ∧ ('-') ∉ (renderCell c.producto).data := by
    decide
  have h2 : ∀ a ∈ asigsC7w, ('-') ∉ a.unidad.data := by decide
  have h3 : ∀ r ∈ camposC7w, ('-') ∉ (renderCell r.valor).data := by decide
  exact ⟨h1, h2, h3,
    claim_C7_description_stability_amended consumoC7w camposC7w asigsC7w h1 h2 h3⟩

/-!
## Column resolution of `load_and_prepare_data`

Spreadsheet parsing itself is out of scope; what is modelled is the
column-access and alias-resolution skeleton that decides which error a
workbook with a missing date column produces.
-/

/-- An error as `load_and_prepare_data` can raise it: a bare pandas
`KeyError` from a direct missing-column access (its message is only the
column name), or the explicit `ValueError` whose message names the sheet
whose date column was not found. -/
inductive PdError where
  | keyError (col : String)
  | valueError (sheet : String)
deriving DecidableEq

/-- Does the error message name the offending sheet?  Only the explicit
`ValueError`s do. -/
def namesSheet : PdError → Bool
  | PdError.valueError _ => true
  | PdError.keyError _ => false

/-- Accessing column `col`: raises `KeyError(col)` when it is absent. -/
def requireCol (cols : List String) (col : String) : Except PdError Unit :=
  if col ∈ cols then Except.ok () else Except.error (PdError.keyError col)

/-- Date-column alias resolution for the fill-up sheet: `Tiempo`, then
`Hora`. -/
def llenadoFechaCol (cols : List String) : Option String :=
  if ("Tiempo") ∈ cols then some ("Tiempo")
  else if ("Hora") ∈ cols then some ("Hora")
  else none

/-- Date-column alias resolution for the cost sheet: `Tiempo`, then
`Hora de registro`. -/
def costoFechaCol (cols : List String) : Option String :=
  if ("Tiempo") ∈ cols then some ("Tiempo")
  else if ("Hora de registro") ∈ cols then some ("Hora de registro")
  else none

/-- The column-access skeleton of `load_and_prepare_data`, in source order:
the trips sheet's columns (`№` row filter, `Comienzo` date, three mileage
columns) are accessed directly — there is no alias chain for `Comienzo` —
while the fill-up and cost sheets resolve their date column through an
alias chain and raise a descriptive `ValueError` naming the sheet when no
alias is present.  The surrounding `except` turns either error into the
reported message and a `None` result. -/
def load_and_prepare_data (viajesCols llenCols costCols : List String) :
    Except PdError Unit := do
  requireCol viajesCols ("№")
  requireCol viajesCols ("Comienzo")
  requireCol viajesCols ("Kilometraje")
  requireCol viajesCols ("Kilometraje urbano")
  requireCol viajesCols ("Kilometraje suburbano")
  requireCol llenCols ("№")
  match llenadoFechaCol llenCols with
  | none => Except.error (PdError.valueError ("Llenados de combustible ..."))
  | some c => requireCol llenCols c
  requireCol llenCols ("Llenado registrado")
  requireCol costCols ("№")
  match costoFechaCol costCols with
  | none => Except.error (PdError.valueError ("Coste de utilización"))
  | some c => requireCol costCols c
  requireCol costCols ("Coste")

/-- All trips-sheet columns present. -/
def viajesColsOk (cols : List String) : Prop :=
  ("№") ∈ cols ∧ ("Comienzo") ∈ cols ∧ ("Kilometraje") ∈ cols
    ∧ ("Kilometraje urbano") ∈ cols ∧ ("Kilometraje suburbano") ∈ cols

/-- All fill-up-sheet columns present (some date alias included). -/
def llenadosColsOk (cols : List String) : Prop :=
  ("№") ∈ cols ∧ (("Tiempo") ∈ cols ∨ ("Hora") ∈ cols)
    ∧ ("Llenado registrado") ∈ cols

/-- Sequencing a success in the `Except` monad. -/
theorem exceptOkBind {e a b : Type} (x : a) (k : a → Except e b) :
    (Except.ok x >>= k) = k x := rfl

/-- Sequencing after a raise in the `Except` monad. -/
theorem exceptErrorBind {e a b : Type} (err : e) (k : a → Except e b) :
    (Except.error err >>= k) = Except.error err := rfl

/-- **C9, counterexample** — for the *trips* sheet the claim fails: with
`Comienzo` absent (and the other columns present) the load fails with a bare
`KeyError` naming only the column, not a descriptive error naming the
sheet. -/
theorem claim_C9_counterexample :
    load_and_prepare_data
        ["№", "Kilometraje", "Kilometraje urbano", "Kilometraje suburbano"]
        ["№", "Tiempo", "Llenado registrado"] ["№", "Tiempo", "Coste"]
      = Except.error (PdError.keyError ("Comienzo"))
    ∧ namesSheet (PdError.keyError ("Comienzo")) = false := by
  constructor
  · rfl
  · rfl

/-- **C9 (amended)** — the fail-fast behaviour split by sheet: a fill-up
sheet with neither `Tiempo` nor `Hora` fails with the `ValueError` naming
that sheet, a cost sheet with neither `Tiempo` nor `Hora de registro` fails
with the `ValueError` naming that sheet, but a trips sheet without
`Comienzo` fails with a bare `KeyError` naming only the missing column —
no alias chain and no sheet name.  In every case the load aborts rather
than proceeding with a null date column. -/
theorem claim_C9_missing_date_column_amended
    (viajesCols llenCols costCols : List String) :
    (("№") ∈ viajesCols → ("Comienzo") ∉ viajesCols →
      load_and_prepare_data viajesCols llenCols costCols
        = Except.error (PdError.keyError ("Comienzo")))
    ∧ (viajesColsOk viajesCols → ("№") ∈ llenCols →
      ("Tiempo") ∉ llenCols → ("Hora") ∉ llenCols →
      load_and_prepare_data viajesCols llenCols costCols
        = Except.error (PdError.valueError ("Llenados de combustible ...")))
    ∧ (viajesColsOk viajesCols → llenadosColsOk llenCols → ("№") ∈ costCols →
      ("Tiempo") ∉ costCols → ("Hora de registro") ∉ costCols →
      load_and_prepare_data viajesCols llenCols costCols
        = Except.error (PdError.valueError ("Coste de utilización"))) := by
  refine ⟨?_, ?_, ?_⟩
  · intro h1 h2
    simp [load_and_prepare_data, requireCol, exceptOkBind, exceptErrorBind, h1, h2]
  · rintro ⟨h1, h2, h3, h4, h5⟩ h6 h7 h8
    simp [load_and_prepare_data, requireCol, llenadoFechaCol, exceptOkBind,
      exceptErrorBind, h1, h2, h3, h4, h5, h6, h7, h8]
  · rintro ⟨h1, h2, h3, h4, h5⟩ ⟨h6, h7, h8⟩ h9 h10 h11
    by_cases ht : ("Tiempo") ∈ llenCols
    · simp [load_and_prepare_data, requireCol, llenadoFechaCol, costoFechaCol,
        exceptOkBind, exceptErrorBind, h1, h2, h3, h4, h5, h6, h8, h9, h10, h11, ht]
    · have h7h : ("Hora") ∈ llenCols := h7.resolve_left ht
      simp [load_and_prepare_data, requireCol, llenadoFechaCol, costoFechaCol,
        exceptOkBind, exceptErrorBind, h1, h2, h3, h4, h5, h6, h8, h9, h10, h11,
        ht, h7h]

theorem claim_C9_missing_date_column_amended_witness :
    load_and_prepare_data
        ["№", "Comienzo", "Kilometraje", "Kilometraje urbano", "Kilometraje suburbano"]
        ["№", "Llenado registrado"] ["№", "Tiempo", "Coste"]
      = Except.error (PdError.valueError ("Llenados de combustible ...")) :=
  (claim_C9_missing_date_column_amended
      ["№", "Comienzo", "Kilometraje", "Kilometraje urbano", "Kilometraje suburbano"]
      ["№", "Llenado registrado"] ["№", "Tiempo", "Coste"]).2.1
    (by unfold viajesColsOk; decide) (by decide) (by decide) (by decide)
